import Mathlib

/-!
Verification of the news-aggregator core of `src/cli.py` (article store,
ingestion/deduplication, query builder, export pipeline).

The Python functions are shallowly embedded as executable Lean definitions:

* `save_articles`    — `cli.py` lines 92-139 (pandas `drop_duplicates` on
  `link` keeping the first occurrence, per-row `INSERT` with
  `sqlite3.IntegrityError` caught, and the printed report
  `attempted / inserted / attempted - inserted`);
* `build_query`      — lines 144-172 (optional `LIKE` filters for source and
  keyword, `strptime`-validated exact date filter, `ORDER BY published_date
  DESC`);
* `execute_query`    — lines 174-187 (runs the query, drops the internal
  `id` column, reports `Database query failed: <cause>` on store failure);
* `export_data`      — lines 189-215 (csv/excel/json encodings, empty-input
  early return, unsupported-format error);
* `fetch_mock_data`  — lines 39-90 (five fixed candidate articles and the
  optional case-insensitive source filter).

Strings are modelled as Lean `String`/`List Char`; machine text comparison
(`ORDER BY` with SQLite's BINARY collation on UTF-8 text) is the
lexicographic order on the code points, which coincides with byte-wise
comparison of UTF-8. SQLite `LIKE` is modelled with its `%` and `_`
wildcards and its ASCII-only case folding; Python's `str.lower` is modelled
by the same ASCII folding (every string occurring in the program is ASCII).
`uuid.uuid4` primary keys are modelled by a supply of fresh natural-number
identifiers (they never collide, as `uuid4` values are assumed not to).
-/

/-- ASCII lower-casing of a single character (`A`..`Z` map to `a`..`z`,
everything else is fixed); this is SQLite's `LIKE` case folding and agrees
with Python's `str.lower` on ASCII text. -/
def asciiLower (c : Char) : Char :=
  if 65 ≤ c.toNat ∧ c.toNat ≤ 90 then Char.ofNat (c.toNat + 32) else c

/-- Helper for `likeMatch`: `likeStar m s` decides whether the matcher `m`
accepts some suffix of `s`; it implements the SQL `LIKE` wildcard `%`. -/
def likeStar (m : List Char → Bool) : List Char → Bool
  | [] => m []
  | c :: s => m (c :: s) || likeStar m s

/-- SQLite `LIKE` pattern matching (default, no `ESCAPE` clause): `%`
matches any sequence of characters, `_` matches one character, any other
pattern character matches case-insensitively (ASCII folding). -/
def likeMatch : List Char → List Char → Bool
  | [], s => s.isEmpty
  | c :: p, s =>
    if c = '%' then likeStar (likeMatch p) s
    else if c = '_' then
      match s with
      | [] => false
      | _ :: s' => likeMatch p s'
    else
      match s with
      | [] => false
      | d :: s' => (asciiLower c == asciiLower d) && likeMatch p s'

/-- Test `startsCI p s`: `s` starts with `p`, comparing characters
case-insensitively (ASCII folding). -/
def startsCI : List Char → List Char → Bool
  | [], _ => true
  | _ :: _, [] => false
  | c :: p, d :: s => (asciiLower c == asciiLower d) && startsCI p s

/-- Test `containsCI p s`: `p` occurs in `s` as a contiguous substring, comparing
characters case-insensitively (ASCII folding).  This is the reading of the
spec's "case-insensitive, unanchored substring". -/
def containsCI (p : List Char) : List Char → Bool
  | [] => startsCI p []
  | c :: s => startsCI p (c :: s) || containsCI p s

/-- A pattern is wildcard-free when it contains neither of SQL `LIKE`'s
metacharacters `%` and `_`. -/
def noWildcard (cs : List Char) : Bool :=
  cs.all fun c => !(c == '%') && !(c == '_')

/-- ASCII lower-casing of a whole string (model of Python `str.lower` for
the ASCII strings occurring in the program). -/
def lowerStr (s : String) : String :=
  ⟨s.data.map asciiLower⟩

-- Date validation, modelling `datetime.strptime(args.date, '%Y-%m-%d')`
-- (`cli.py` line 164) on ASCII input: four year digits, one or two month
-- digits, one or two day digits, and the `datetime` range checks.

/-- Decimal ASCII digit test. -/
def isAsciiDigit (c : Char) : Bool :=
  48 ≤ c.toNat && c.toNat ≤ 57

/-- Numeric value of a string of decimal digits. -/
def digitsToNat (cs : List Char) : Nat :=
  cs.foldl (fun acc c => acc * 10 + (c.toNat - 48)) 0

/-- Splitting a character list at a separator character, like Python
`str.split(sep)`: `splitOnChar '-' "a--b"` is `["a", "", "b"]`. -/
def splitOnChar (sep : Char) : List Char → List (List Char)
  | [] => [[]]
  | c :: cs =>
    if c = sep then [] :: splitOnChar sep cs
    else
      match splitOnChar sep cs with
      | [] => [[c]]
      | p :: ps => (c :: p) :: ps

/-- Gregorian leap-year test, as used by Python's `datetime`. -/
def isLeapYear (y : Nat) : Bool :=
  y % 4 == 0 && (y % 100 != 0 || y % 400 == 0)

/-- Length of a month in Python's `datetime` calendar. -/
def daysInMonth (y m : Nat) : Nat :=
  if m = 2 then (if isLeapYear y then 29 else 28)
  else if m = 4 ∨ m = 6 ∨ m = 9 ∨ m = 11 then 30
  else 31

/-- Model of `datetime.strptime(s, '%Y-%m-%d')` succeeding: exactly four
year digits (year at least 1), one or two month digits with value 1..12,
one or two day digits with value at least 1 and at most the month length.
This is the CPython `_strptime` regex for `%Y-%m-%d` followed by the
`datetime` constructor's range checks, on ASCII digits. -/
def isValidDate (s : String) : Bool :=
  match splitOnChar '-' s.data with
  | [y, m, d] =>
    y.length == 4 && y.all isAsciiDigit &&
    (m.length == 1 || m.length == 2) && m.all isAsciiDigit &&
    (d.length == 1 || d.length == 2) && d.all isAsciiDigit &&
    (1 ≤ digitsToNat y) &&
    (1 ≤ digitsToNat m) && (digitsToNat m ≤ 12) &&
    (1 ≤ digitsToNat d) && (digitsToNat d ≤ daysInMonth (digitsToNat y) (digitsToNat m))
  | _ => false

-- ## Data model

/-- A candidate article as produced by fetching (`fetch_mock_data`): the
five user-visible fields, no identifier yet. -/
structure Candidate where
  title : String
  summary : String
  link : String
  source : String
  published_date : String
deriving DecidableEq, Repr

/-- A stored article row: the candidate fields plus the hidden primary key
`id` assigned during ingestion (`uuid.uuid4` modelled as a fresh natural
number). -/
structure Row where
  id : Nat
  title : String
  summary : String
  link : String
  source : String
  published_date : String
deriving DecidableEq, Repr

/-- The five user-visible fields of a row, after the internal `id` column
has been dropped (`execute_query`, line 182). -/
structure VisibleRow where
  title : String
  summary : String
  link : String
  source : String
  published_date : String
deriving DecidableEq, Repr

/-- Model of `df.drop(columns=['id'])` on a single row. -/
def dropId (r : Row) : VisibleRow :=
  ⟨r.title, r.summary, r.link, r.source, r.published_date⟩

/-- The store: the `articles` table, as the list of its rows in insertion
order. -/
abbrev Store := List Row

-- ## Ingestion (`save_articles`, `cli.py` lines 92-139)

/-- Model of `df.drop_duplicates(subset=['link'], keep='first')` (line 102): keep
the first candidate for each link, silently dropping later ones. -/
def dedupeByLinkGo (seen : List String) : List Candidate → List Candidate
  | [] => []
  | c :: rest =>
    if c.link ∈ seen then dedupeByLinkGo seen rest
    else c :: dedupeByLinkGo (c.link :: seen) rest

/-- In-batch deduplication by `link`, first occurrence wins. -/
def dedupeByLink (batch : List Candidate) : List Candidate :=
  dedupeByLinkGo [] batch

/-- Identifier assignment (line 105): each surviving candidate receives a
fresh identifier, modelled as consecutive numbers starting at `base`. -/
def attachIds (base : Nat) : List Candidate → List Row
  | [] => []
  | c :: rest => ⟨base, c.title, c.summary, c.link, c.source, c.published_date⟩ :: attachIds (base + 1) rest

/-- Outcome of one `INSERT` attempt (lines 114-132): success, a
`sqlite3.IntegrityError` (caught, counted by `duplicate_count`), or any
other exception (caught, only printed). -/
inductive InsertOutcome where
  | ok
  | integrityError
  | otherError
deriving DecidableEq, Repr

/-- Abstract single-row insert behaviour of the store. -/
def InsertFun := Store → Row → InsertOutcome × Store

/-- Membership of a link in the store (the `UNIQUE` constraint's view of
the table). -/
def linkMem (l : String) (s : Store) : Bool :=
  s.any (fun x => x.link == l)

/-- The SQLite table with its `UNIQUE` constraint on `link`: the insert
fails with an `IntegrityError` exactly when the link is already present,
and otherwise appends the row.  (`id` is a primary key as well, but the
modelled identifier supply is always fresh, so it never collides.) -/
def sqliteInsert : InsertFun := fun s r =>
  if linkMem r.link s then (.integrityError, s)
  else (.ok, s ++ [r])

/-- The insert loop of `save_articles` (lines 113-132), returning the final
store, `new_articles_count` and `duplicate_count`. -/
def insertLoop (ins : InsertFun) : Store → List Row → Store × Nat × Nat
  | s, [] => (s, 0, 0)
  | s, r :: rest =>
    match ins s r with
    | (.ok, s') =>
      ((insertLoop ins s' rest).1, (insertLoop ins s' rest).2.1 + 1, (insertLoop ins s' rest).2.2)
    | (.integrityError, s') =>
      ((insertLoop ins s' rest).1, (insertLoop ins s' rest).2.1, (insertLoop ins s' rest).2.2 + 1)
    | (.otherError, s') => insertLoop ins s' rest

/-- The printed ingestion report (lines 136-139): `Total processed`,
`New articles inserted`, and `Skipped as duplicates (in batch or DB)` —
the last one computed as `len(articles) - new_articles_count`. -/
structure SaveReport where
  attempted : Nat
  inserted : Nat
  duplicates : Nat
deriving DecidableEq, Repr

/-- Model of `save_articles` (lines 92-139): in-batch dedup by link, identifier
assignment, per-row insert, and the report.  The empty batch returns early
printing `No articles to save` and no counts (line 94-96); its report is
modelled as all zeroes, matching the spec's empty-batch edge case. -/
def save_articles (ins : InsertFun) (idBase : Nat) (store : Store) (articles : List Candidate) :
    Store × SaveReport :=
  if articles = [] then (store, ⟨0, 0, 0⟩)
  else
    ((insertLoop ins store (attachIds idBase (dedupeByLink articles))).1,
     ⟨articles.length,
      (insertLoop ins store (attachIds idBase (dedupeByLink articles))).2.1,
      articles.length - (insertLoop ins store (attachIds idBase (dedupeByLink articles))).2.1⟩)

-- ## Query builder (`build_query`, `cli.py` lines 144-172)

/-- The CLI filter arguments (`args.source`, `args.keyword`, `args.date`);
`none` when the option is absent. -/
structure Args where
  source : Option String
  keyword : Option String
  date : Option String
deriving DecidableEq, Repr

/-- Python truthiness of an optional string (`if args.source:` etc.):
`none` and the empty string are falsy. -/
def optTruthy : Option String → Option String
  | none => none
  | some s => if s = "" then none else some s

/-- One conjunct of the built `WHERE` clause, together with its bound
parameter (the wrapped pattern for the `LIKE` conjuncts, the raw date for
the equality conjunct). -/
inductive Cond where
  | sourceLike (pat : String)
  | keywordLike (pat : String)
  | dateEq (d : String)
deriving DecidableEq, Repr

/-- The warning printed on an invalid date (line 168). -/
def invalidDateWarning (d : String) : String :=
  "Warning: Invalid date format provided: " ++ d ++
    ". Required format is YYYY-MM-DD. Ignoring date filter."

/-- Model of `build_query` (lines 144-172): the list of `WHERE` conjuncts (in the
order the code appends them: source, keyword, date) and the list of printed
warnings.  `LIKE` parameters are wrapped as `%...%` (lines 153, 158); a
present-but-invalid date is dropped with a warning (lines 161-168). -/
def build_query (a : Args) : List Cond × List String :=
  let c1 : List Cond :=
    match optTruthy a.source with
    | some s => [.sourceLike ("%" ++ s ++ "%")]
    | none => []
  let c2 : List Cond :=
    match optTruthy a.keyword with
    | some k => [.keywordLike ("%" ++ k ++ "%")]
    | none => []
  let cw : List Cond × List String :=
    match optTruthy a.date with
    | some d => if isValidDate d then ([.dateEq d], []) else ([], [invalidDateWarning d])
    | none => ([], [])
  (c1 ++ c2 ++ cw.1, cw.2)

/-- Evaluation of one `WHERE` conjunct at a row: `source LIKE :source`,
`(title LIKE :keyword OR summary LIKE :keyword)`, or
`published_date = :date`. -/
def condMatches (r : Row) : Cond → Bool
  | .sourceLike pat => likeMatch pat.data r.source.data
  | .keywordLike pat => likeMatch pat.data r.title.data || likeMatch pat.data r.summary.data
  | .dateEq d => r.published_date == d

/-- Evaluation of the whole `WHERE` clause (`1=1 AND ...`). -/
def rowMatches (r : Row) (conds : List Cond) : Bool :=
  conds.all (condMatches r)

-- `ORDER BY published_date DESC`: SQLite sorts the TEXT column with its
-- BINARY collation (byte-wise comparison of UTF-8, i.e. the lexicographic
-- order on code points).  The sort is modelled as a stable descending
-- insertion sort on the scanned rows: rows with equal dates keep their
-- insertion order, which is the spec's tie-break.

/-- Stable descending insertion of a row in front of the first row whose
date is not greater (ties therefore stay behind the incoming earlier row). -/
def insertDesc (r : Row) : List Row → List Row
  | [] => [r]
  | x :: xs =>
    if r.published_date.data < x.published_date.data then x :: insertDesc r xs
    else r :: x :: xs

/-- Stable sort of the rows by `published_date`, descending. -/
def sortDesc (l : List Row) : List Row :=
  l.foldr insertDesc []

/-- The rows produced by the built query against the store: the table scan
filtered by the `WHERE` clause, ordered by date descending. -/
def executeRows (a : Args) (store : Store) : List Row :=
  sortDesc (store.filter (fun r => rowMatches r (build_query a).1))

/-- Model of `execute_query` (lines 174-187): on success the result rows minus the
hidden `id` column, on a store failure (`except Exception`, line 183) the
message `Database query failed: <cause>` and an empty result.  The access
failure is injected as `dbFail`; the first component collects the printed
warnings and error messages. -/
def execute_query (a : Args) (store : Store) (dbFail : Option String) :
    List String × List VisibleRow :=
  match dbFail with
  | some e => ((build_query a).2 ++ ["Database query failed: " ++ e], [])
  | none => ((build_query a).2, (executeRows a store).map dropId)

/-- A query/export command invocation at the store level: the query path
contains no write statement, so the command returns the store unchanged
next to `execute_query`'s output. -/
def queryCommand (store : Store) (a : Args) (dbFail : Option String) :
    Store × (List String × List VisibleRow) :=
  (store, execute_query a store dbFail)

-- ## Fetching (`fetch_mock_data`, `cli.py` lines 39-90)

/-- The five mock candidate articles (lines 49-85); the publication dates
depend on the run time, so `today` and `yesterday` are parameters. -/
def allMockArticles (today yesterday : String) : List Candidate :=
  [⟨"AI Breakthrough: New LLM achieves record performance",
    "Researchers have unveiled a massive new language model...",
    "http://sourcea.com/article1", "SourceA (Tech Weekly)", today⟩,
   ⟨"Global Markets Rally on Tech Stocks Optimism",
    "The stock market saw significant gains driven by...",
    "http://sourceb.com/article2", "SourceB (Finance News)", today⟩,
   ⟨"The Future of Robotics in Manufacturing: A Deep Dive",
    "Automation continues to reshape factory floors globally.",
    "http://sourcea.com/article3", "SourceA (Tech Weekly)", yesterday⟩,
   ⟨"New Policy Changes Affecting Small Businesses",
    "Government introduces incentives for local entrepreneurs.",
    "http://sourcec.com/article4", "SourceC (Policy Hub)", today⟩,
   ⟨"AI Breakthrough: New LLM achieves record performance",
    "Researchers have unveiled a massive new language model...",
    "http://sourcea.com/article1_v2", "SourceA (Tech Weekly)", today⟩]

/-- Model of `fetch_mock_data(source_filter)` (lines 39-90): all five candidates,
filtered — when `source_filter` is truthy (line 87) — to those whose source
equals the filter case-insensitively (`a['source'].lower() ==
source_filter.lower()`, line 88). -/
def fetch_mock_data (source_filter : Option String) (today yesterday : String) :
    List Candidate :=
  let all := allMockArticles today yesterday
  match source_filter with
  | none => all
  | some f =>
    if f = "" then all
    else all.filter (fun a => lowerStr a.source == lowerStr f)

-- ## Export (`export_data`, `cli.py` lines 189-215)

-- CSV rendering models `df.to_csv(output_file, index=False)`: the header
-- row followed by one line per row, fields separated by commas, each line
-- terminated by a newline, and minimal quoting — a field is wrapped in
-- double quotes, with embedded double quotes doubled, exactly when it
-- contains a comma, a double quote, or a line break.

/-- Characters that force a CSV field to be quoted under minimal quoting. -/
def isCsvSpecial (c : Char) : Bool :=
  c == ',' || c == '"' || c == '\n' || c == '\r'

/-- Double every double quote in a field body. -/
def dq : List Char → List Char
  | [] => []
  | c :: cs => if c = '"' then '"' :: '"' :: dq cs else c :: dq cs

/-- Minimal quoting of one CSV field. -/
def escapeField (f : List Char) : List Char :=
  if f.any isCsvSpecial then '"' :: (dq f ++ ['"']) else f

/-- One CSV line: the escaped fields joined by commas. -/
def renderRow : List (List Char) → List Char
  | [] => []
  | [f] => escapeField f
  | f :: fs => escapeField f ++ ',' :: renderRow fs

/-- A CSV file: one line per row, each terminated by a newline. -/
def renderFile : List (List (List Char)) → List Char
  | [] => []
  | r :: rs => renderRow r ++ '\n' :: renderFile rs

/-- The header fields of the exported frame: the visible columns, in the
column order of the `SELECT *` minus the dropped `id`. -/
def csvHeaderFields : List (List Char) :=
  ["title".data, "summary".data, "link".data, "source".data, "published_date".data]

/-- The five visible field values of an exported row, in column order. -/
def visFields (v : VisibleRow) : List (List Char) :=
  [v.title.data, v.summary.data, v.link.data, v.source.data, v.published_date.data]

/-- The text written by `df.to_csv(output_file, index=False)` (line 199). -/
def csvFile (vis : List VisibleRow) : List Char :=
  renderFile (csvHeaderFields :: vis.map visFields)

/-- The file produced by an export: the CSV text, or the Excel / JSON
serializations of the rows (their byte-level encodings are opaque to the
claims, so they are modelled by the serialized row list). -/
inductive FileContent where
  | csv (text : List Char)
  | excel (rows : List VisibleRow)
  | json (rows : List VisibleRow)
deriving DecidableEq, Repr

/-- Outcome of `export_data`: the empty-input early return (line 191-193),
a written file, or the unsupported-format error message (line 212). -/
inductive ExportOutcome where
  | nothingToExport
  | fileWritten (content : FileContent)
  | unsupportedFormat (fmt : String)
deriving DecidableEq, Repr

/-- Whether an export outcome created or modified a file. -/
def writesFile : ExportOutcome → Bool
  | .fileWritten _ => true
  | _ => false

/-- Model of `export_data(df, output_file, export_format)` (lines 189-215): empty
input returns early; `csv`, `excel` and `json` write the corresponding
serialization; any other format only prints
`Error: Unsupported export format '...'` and writes nothing. -/
def export_data (vis : List VisibleRow) (fmt : String) : ExportOutcome :=
  if vis = [] then .nothingToExport
  else if fmt = "csv" then .fileWritten (.csv (csvFile vis))
  else if fmt = "excel" then .fileWritten (.excel vis)
  else if fmt = "json" then .fileWritten (.json vis)
  else .unsupportedFormat fmt

-- ## A CSV reader, for the round-trip claim

/-- State of the CSV scanner: inside an unquoted region, inside a quoted
field, or just past a double quote inside a quoted field (which either
closes the field or — when doubled — stands for a literal quote). -/
inductive CsvMode where
  | normal
  | quoted
  | closing
deriving DecidableEq, Repr

/-- Character-by-character CSV scanner: `csvGo mode field row input`
returns the rows of `input`, where `field` and `row` hold the partially
read current field and current row. -/
def csvGo : CsvMode → List Char → List (List Char) → List Char → List (List (List Char))
  | .normal, field, row, [] =>
    if field = [] ∧ row = [] then [] else [row ++ [field]]
  | .quoted, field, row, [] => [row ++ [field]]
  | .closing, field, row, [] => [row ++ [field]]
  | .normal, field, row, c :: cs =>
    if c = ',' then csvGo .normal [] (row ++ [field]) cs
    else if c = '\n' then (row ++ [field]) :: csvGo .normal [] [] cs
    else if c = '"' ∧ field = [] then csvGo .quoted [] row cs
    else csvGo .normal (field ++ [c]) row cs
  | .quoted, field, row, c :: cs =>
    if c = '"' then csvGo .closing field row cs
    else csvGo .quoted (field ++ [c]) row cs
  | .closing, field, row, c :: cs =>
    if c = '"' then csvGo .quoted (field ++ ['"']) row cs
    else if c = ',' then csvGo .normal [] (row ++ [field]) cs
    else if c = '\n' then (row ++ [field]) :: csvGo .normal [] [] cs
    else csvGo .normal (field ++ [c]) row cs

/-- Re-parsing a CSV text into its rows of fields. -/
def parseCsv (text : List Char) : List (List (List Char)) :=
  csvGo .normal [] [] text



-- ## Ingestion lemmas

theorem insertLoop_inserted_le (ins : InsertFun) :
    ∀ (rows : List Row) (s : Store), (insertLoop ins s rows).2.1 ≤ rows.length := by
  intro rows
  induction rows with
  | nil => intro s; simp [insertLoop]
  | cons r rest ih =>
    intro s
    simp only [insertLoop]
    rcases hins : ins s r with ⟨o, s'⟩
    have hle := ih s'
    cases o <;> simp [List.length_cons] <;> omega

theorem dedupeByLinkGo_length_le (batch : List Candidate) :
    ∀ seen, (dedupeByLinkGo seen batch).length ≤ batch.length := by
  induction batch with
  | nil => intro seen; simp [dedupeByLinkGo]
  | cons c rest ih =>
    intro seen
    simp only [dedupeByLinkGo]
    split
    · exact Nat.le_succ_of_le (ih seen)
    · simpa using ih (c.link :: seen)

theorem attachIds_length : ∀ (cs : List Candidate) (base : Nat),
    (attachIds base cs).length = cs.length := by
  intro cs
  induction cs with
  | nil => intro base; simp [attachIds]
  | cons c rest ih => intro base; simp [attachIds, ih]

theorem attachIds_links : ∀ (cs : List Candidate) (base : Nat),
    (attachIds base cs).map (fun r => r.link) = cs.map (fun c => c.link) := by
  intro cs
  induction cs with
  | nil => intro base; simp [attachIds]
  | cons c rest ih => intro base; simp [attachIds, ih]

theorem linkMem_insertLoop_mono :
    ∀ (rows : List Row) (s : Store) (l : String), linkMem l s = true →
      linkMem l (insertLoop sqliteInsert s rows).1 = true := by
  intro rows
  induction rows with
  | nil => intro s l h; simpa [insertLoop] using h
  | cons r rest ih =>
    intro s l h
    simp only [insertLoop, sqliteInsert]
    cases hc : linkMem r.link s with
    | true =>
      simp only [hc, if_true]
      exact ih s l h
    | false =>
      simp only [hc, Bool.false_eq_true, if_false]
      have hmem : linkMem l (s ++ [r]) = true := by
        simp only [linkMem, List.any_append]
        simp only [linkMem] at h
        simp [h]
      exact ih (s ++ [r]) l hmem

theorem linkMem_insertLoop_of_mem :
    ∀ (rows : List Row) (s : Store) (r : Row), r ∈ rows →
      linkMem r.link (insertLoop sqliteInsert s rows).1 = true := by
  intro rows
  induction rows with
  | nil => intro s r h; cases h
  | cons r0 rest ih =>
    intro s r hmem
    simp only [insertLoop, sqliteInsert]
    cases hc : linkMem r0.link s with
    | true =>
      simp only [hc, if_true]
      rcases List.mem_cons.mp hmem with heq | htail
      · exact heq ▸ linkMem_insertLoop_mono rest s r0.link hc
      · exact ih s r htail
    | false =>
      simp only [hc, Bool.false_eq_true, if_false]
      rcases List.mem_cons.mp hmem with heq | htail
      · have hmem0 : linkMem r0.link (s ++ [r0]) = true := by
          simp [linkMem, List.any_append]
        exact heq ▸ linkMem_insertLoop_mono rest (s ++ [r0]) r0.link hmem0
      · exact ih (s ++ [r0]) r htail

theorem insertLoop_all_duplicate :
    ∀ (rows : List Row) (s : Store), (∀ r ∈ rows, linkMem r.link s = true) →
      insertLoop sqliteInsert s rows = (s, 0, rows.length) := by
  intro rows
  induction rows with
  | nil => intro s _; simp [insertLoop]
  | cons r rest ih =>
    intro s h
    have hr : linkMem r.link s = true := h r (List.mem_cons_self r rest)
    simp only [insertLoop, sqliteInsert, hr, if_true]
    rw [ih s (fun x hx => h x (List.mem_cons_of_mem r hx))]
    simp

theorem insertLoop_all_other :
    ∀ (rows : List Row) (s : Store),
      insertLoop (fun s _ => (.otherError, s)) s rows = (s, 0, 0) := by
  intro rows
  induction rows with
  | nil => intro s; simp [insertLoop]
  | cons r rest ih => intro s; simpa [insertLoop] using ih s

-- ## Claim theorems: ingestion

/-- C1: for every batch, the ingestion report from an empty store satisfies
`inserted + duplicates = attempted`, and re-running the ingestion of the
identical batch against the resulting store inserts nothing (idempotence
under identical input). -/
theorem claim_c1 (batch : List Candidate) (idBase idBase' : Nat) :
    (save_articles sqliteInsert idBase [] batch).2.inserted +
        (save_articles sqliteInsert idBase [] batch).2.duplicates =
      (save_articles sqliteInsert idBase [] batch).2.attempted ∧
    (save_articles sqliteInsert idBase'
        (save_articles sqliteInsert idBase [] batch).1 batch).2.inserted = 0 := by
  constructor
  · by_cases hb : batch = []
    · simp [save_articles, hb]
    · simp only [save_articles, if_neg hb]
      have h1 := insertLoop_inserted_le sqliteInsert (attachIds idBase (dedupeByLink batch)) []
      have h2 := attachIds_length (dedupeByLink batch) idBase
      have h3 := dedupeByLinkGo_length_le batch []
      simp only [dedupeByLink] at *
      omega
  · by_cases hb : batch = []
    · simp [save_articles, hb]
    · simp only [save_articles, if_neg hb]
      have hdup : ∀ r ∈ attachIds idBase' (dedupeByLink batch),
          linkMem r.link
            (insertLoop sqliteInsert [] (attachIds idBase (dedupeByLink batch))).1 = true := by
        intro r hr
        have hmap : r.link ∈ (attachIds idBase' (dedupeByLink batch)).map (fun x => x.link) :=
          List.mem_map_of_mem _ hr
        rw [attachIds_links] at hmap
        rw [← attachIds_links (dedupeByLink batch) idBase] at hmap
        rcases List.mem_map.mp hmap with ⟨r1, hr1, hlink⟩
        have hm := linkMem_insertLoop_of_mem (attachIds idBase (dedupeByLink batch)) [] r1 hr1
        exact hlink ▸ hm
      rw [insertLoop_all_duplicate (attachIds idBase' (dedupeByLink batch)) _ hdup]

/-- C2: with links `L1`, `L2` already stored, ingesting the batch
`[L1-record, first L3-record, second L3-record]` reports
`attempted = 3, inserted = 1, duplicates = 2`; the `L1` record is rejected
against the store, the first `L3` record is inserted (its content wins),
and the second `L3` record is dropped by the in-batch dedup. -/
theorem claim_c2 :
    save_articles sqliteInsert 0
        [⟨100, "t1", "s1", "L1", "SourceX", "2024-01-01"⟩,
         ⟨101, "t2", "s2", "L2", "SourceY", "2024-01-02"⟩]
        [⟨"first L1", "sum1", "L1", "SrcA", "2024-01-03"⟩,
         ⟨"first L3", "sum3", "L3", "SrcA", "2024-01-04"⟩,
         ⟨"second L3", "other", "L3", "SrcB", "2024-01-05"⟩] =
      ([⟨100, "t1", "s1", "L1", "SourceX", "2024-01-01"⟩,
        ⟨101, "t2", "s2", "L2", "SourceY", "2024-01-02"⟩,
        ⟨1, "first L3", "sum3", "L3", "SrcA", "2024-01-04"⟩],
       ⟨3, 1, 2⟩) := by decide

/-- C10: for every batch and every store insert behaviour, the reported
duplicates count is `attempted - inserted` by construction, so the identity
`inserted + duplicates = attempted` holds for every outcome; in particular
a store that fails every insert with a non-uniqueness error still yields a
report counting the whole batch as duplicates. -/
theorem claim_c10 (ins : InsertFun) (idBase : Nat) (store : Store) (batch : List Candidate) :
    (save_articles ins idBase store batch).2.duplicates =
        (save_articles ins idBase store batch).2.attempted -
          (save_articles ins idBase store batch).2.inserted ∧
    (save_articles ins idBase store batch).2.inserted +
        (save_articles ins idBase store batch).2.duplicates =
      (save_articles ins idBase store batch).2.attempted ∧
    (save_articles (fun s _ => (.otherError, s)) idBase store batch).2 =
      ⟨batch.length, 0, batch.length⟩ := by
  refine ⟨?_, ?_, ?_⟩
  · by_cases hb : batch = []
    · simp [save_articles, hb]
    · simp only [save_articles, if_neg hb]
  · by_cases hb : batch = []
    · simp [save_articles, hb]
    · simp only [save_articles, if_neg hb]
      have h1 := insertLoop_inserted_le ins (attachIds idBase (dedupeByLink batch)) store
      have h2 := attachIds_length (dedupeByLink batch) idBase
      have h3 := dedupeByLinkGo_length_le batch []
      simp only [dedupeByLink] at *
      omega
  · by_cases hb : batch = []
    · simp [save_articles, hb]
    · simp only [save_articles, if_neg hb]
      rw [insertLoop_all_other]
      simp

-- ## Claim theorems: error handling and fetch

/-- C6: when the store access of a query/export command fails, the command
reports the underlying cause (`Database query failed: <cause>`), returns no
rows — so nothing further is rendered or exported — and the store is left
exactly in its pre-command state (the query path performs no write). -/
theorem claim_c6 (store : Store) (a : Args) (e : String) :
    queryCommand store a (some e) =
      (store, ((build_query a).2 ++ ["Database query failed: " ++ e], [])) := rfl

/-- C9 is corrected: as stated it fails on the empty filter string, which
Python truthiness treats as "no filter": `fetch_mock_data("")` returns all
five candidates, while the claim demands exactly the candidates whose
source equals `""` case-insensitively — and no candidate does. -/
theorem claim_c9_counterexample :
    fetch_mock_data (some "") "2026-10-12" "2026-10-11" ≠
      (allMockArticles "2026-10-12" "2026-10-11").filter
        (fun a => lowerStr a.source == lowerStr "") := by decide

/-- C9 (amended): every non-empty source filter selects exactly the mock
candidates whose source equals the filter under case-insensitive
full-string comparison; an absent filter — and likewise an empty filter
string, which is falsy — returns every candidate. -/
theorem claim_c9 (g : String) (today yesterday : String) (hg : g ≠ "") :
    fetch_mock_data (some g) today yesterday =
      (allMockArticles today yesterday).filter
        (fun a => lowerStr a.source == lowerStr g) ∧
    fetch_mock_data none today yesterday = allMockArticles today yesterday ∧
    fetch_mock_data (some "") today yesterday = allMockArticles today yesterday := by
  refine ⟨?_, rfl, rfl⟩
  simp [fetch_mock_data, hg]

theorem claim_c9_witness :
    fetch_mock_data (some "sourcea (tech weekly)") "2026-10-12" "2026-10-11" =
      (allMockArticles "2026-10-12" "2026-10-11").filter
        (fun a => lowerStr a.source == lowerStr "sourcea (tech weekly)") ∧
    fetch_mock_data none "2026-10-12" "2026-10-11" =
      allMockArticles "2026-10-12" "2026-10-11" ∧
    fetch_mock_data (some "") "2026-10-12" "2026-10-11" =
      allMockArticles "2026-10-12" "2026-10-11" :=
  claim_c9 "sourcea (tech weekly)" "2026-10-12" "2026-10-11" (by decide)

/-- C4 is corrected: as stated it fails on the empty date string, which is
present and unparsable, yet — being falsy — skips the whole date block:
no warning is emitted (the claim demands one). -/
theorem claim_c4_counterexample :
    isValidDate "" = false ∧
    build_query ⟨none, none, some ""⟩ = ([], []) := by decide

/-- C4 (amended): for every non-empty date string that does not parse as a
valid `YYYY-MM-DD` calendar date, query construction emits the warning and
omits the date constraint entirely, leaving every other constraint exactly
as it would be with no date given; no error is raised (the builder is
total).  An empty date string is treated as an absent filter instead (no
warning). -/
theorem claim_c4 (a : Args) (d : String) (hd : a.date = some d) (hne : d ≠ "")
    (hbad : isValidDate d = false) :
    (build_query a).1 = (build_query ⟨a.source, a.keyword, none⟩).1 ∧
    (build_query a).2 = [invalidDateWarning d] := by
  constructor <;> simp [build_query, optTruthy, hd, hne, hbad]

theorem claim_c4_witness :
    (build_query ⟨some "SourceA", some "AI", some "2024-13-40"⟩).1 =
      (build_query ⟨some "SourceA", some "AI", none⟩).1 ∧
    (build_query ⟨some "SourceA", some "AI", some "2024-13-40"⟩).2 =
      [invalidDateWarning "2024-13-40"] :=
  claim_c4 ⟨some "SourceA", some "AI", some "2024-13-40"⟩ "2024-13-40" rfl (by decide)
    (by decide)

/-- C5 is corrected: as stated it fails on the empty result set, where the
empty-input early return takes precedence over the format check: exporting
nothing with the unsupported format `xml` reports "nothing to export",
not an `UnsupportedFormatError`. -/
theorem claim_c5_counterexample :
    ("xml" ≠ "csv" ∧ "xml" ≠ "excel" ∧ "xml" ≠ "json") ∧
    export_data [] "xml" = .nothingToExport := by decide

/-- C5 (amended): for every requested export format outside
`{csv, excel, json}`, no file is ever created or modified, and whenever the
result set is non-empty the export fails with the unsupported-format
error surfaced to the caller. -/
theorem claim_c5 (vis : List VisibleRow) (fmt : String)
    (h1 : fmt ≠ "csv") (h2 : fmt ≠ "excel") (h3 : fmt ≠ "json") :
    writesFile (export_data vis fmt) = false ∧
    (vis ≠ [] → export_data vis fmt = .unsupportedFormat fmt) := by
  constructor
  · by_cases hv : vis = [] <;> simp [export_data, hv, h1, h2, h3, writesFile]
  · intro hv
    simp [export_data, hv, h1, h2, h3]

theorem claim_c5_witness :
    writesFile (export_data [⟨"t", "s", "l", "so", "2024-01-01"⟩] "xml") = false ∧
    export_data [⟨"t", "s", "l", "so", "2024-01-01"⟩] "xml" = .unsupportedFormat "xml" := by
  have h := claim_c5 [⟨"t", "s", "l", "so", "2024-01-01"⟩] "xml" (by decide) (by decide)
    (by decide)
  exact ⟨h.1, h.2 (by decide)⟩

-- ## `LIKE` lemmas, for the filter-matching claim

theorem likeStar_nil : ∀ t : List Char, likeStar (likeMatch []) t = true := by
  intro t
  induction t with
  | nil => rfl
  | cons c t' ih => simp [likeStar, ih]

theorem likeMatch_append_pct (p : List Char) (hw : noWildcard p = true) :
    ∀ t, likeMatch (p ++ ['%']) t = startsCI p t := by
  induction p with
  | nil =>
    intro t
    simpa [likeMatch, startsCI] using likeStar_nil t
  | cons c p' ih =>
    intro t
    simp only [noWildcard, List.all_cons, Bool.and_eq_true, Bool.not_eq_true',
      beq_eq_false_iff_ne, ne_eq] at hw
    obtain ⟨⟨hc1, hc2⟩, hw'⟩ := hw
    have ih' := ih (by simpa [noWildcard] using hw')
    cases t with
    | nil => simp [likeMatch, startsCI, hc1, hc2]
    | cons d t' => simp [likeMatch, startsCI, hc1, hc2, ih' t']

theorem likeStar_wrapped (p : List Char) (hw : noWildcard p = true) :
    ∀ t, likeStar (likeMatch (p ++ ['%'])) t = containsCI p t := by
  intro t
  induction t with
  | nil => simp [likeStar, containsCI, likeMatch_append_pct p hw]
  | cons c t' ih => simp [likeStar, containsCI, likeMatch_append_pct p hw, ih]

theorem likeMatch_wrapped (p : List Char) (hw : noWildcard p = true) :
    ∀ t, likeMatch ('%' :: (p ++ ['%'])) t = containsCI p t := by
  intro t
  simp [likeMatch, likeStar_wrapped p hw]

-- ## Claim theorems: filter matching

/-- C7 is corrected: as stated it fails on patterns containing SQL `LIKE`
metacharacters, which the code passes into the `LIKE` pattern unescaped:
the source pattern `a_c` matches the stored source `abc` (the `_` wildcard
matches `b`), although `a_c` is not a substring of `abc`. -/
theorem claim_c7_counterexample :
    rowMatches ⟨0, "t", "s", "l", "abc", "2024-01-01"⟩
        (build_query ⟨some "a_c", none, none⟩).1 = true ∧
    containsCI "a_c".data "abc".data = false := by decide

/-- C7 (amended): for every non-empty source pattern free of the `LIKE`
metacharacters `%` and `_`, the built query matches exactly the records
whose source contains the pattern as a case-insensitive unanchored
substring; likewise a metacharacter-free keyword pattern matches exactly
the records whose title or summary contains it case-insensitively; with
both present the two constraints are combined by logical AND.  (Patterns
containing `%` or `_` are instead interpreted with their SQL wildcard
meaning.) -/
theorem claim_c7 (s k : String) (hs : s ≠ "") (hk : k ≠ "")
    (hws : noWildcard s.data = true) (hwk : noWildcard k.data = true) (r : Row) :
    rowMatches r (build_query ⟨some s, none, none⟩).1 = containsCI s.data r.source.data ∧
    rowMatches r (build_query ⟨none, some k, none⟩).1 =
      (containsCI k.data r.title.data || containsCI k.data r.summary.data) ∧
    rowMatches r (build_query ⟨some s, some k, none⟩).1 =
      (containsCI s.data r.source.data &&
        (containsCI k.data r.title.data || containsCI k.data r.summary.data)) := by
  have hpat : ∀ x : String, ("%" ++ x ++ "%").data = '%' :: (x.data ++ ['%']) := by
    intro x
    simp [String.data_append]
  refine ⟨?_, ?_, ?_⟩ <;>
    simp [build_query, optTruthy, hs, hk, rowMatches, condMatches, hpat,
      likeMatch_wrapped s.data hws, likeMatch_wrapped k.data hwk]

theorem claim_c7_witness :
    rowMatches ⟨7, "AI wins", "short note", "http://x/1", "SourceA (Tech Weekly)", "2024-05-05"⟩
        (build_query ⟨some "tech", none, none⟩).1 =
      containsCI "tech".data "SourceA (Tech Weekly)".data ∧
    rowMatches ⟨7, "AI wins", "short note", "http://x/1", "SourceA (Tech Weekly)", "2024-05-05"⟩
        (build_query ⟨none, some "ai", none⟩).1 =
      (containsCI "ai".data "AI wins".data || containsCI "ai".data "short note".data) ∧
    rowMatches ⟨7, "AI wins", "short note", "http://x/1", "SourceA (Tech Weekly)", "2024-05-05"⟩
        (build_query ⟨some "tech", some "ai", none⟩).1 =
      (containsCI "tech".data "SourceA (Tech Weekly)".data &&
        (containsCI "ai".data "AI wins".data || containsCI "ai".data "short note".data)) :=
  claim_c7 "tech" "ai" (by decide) (by decide) (by decide) (by decide)
    ⟨7, "AI wins", "short note", "http://x/1", "SourceA (Tech Weekly)", "2024-05-05"⟩

-- ## Ordering lemmas, for the empty-filter claim

theorem mem_insertDesc (r y : Row) : ∀ l : List Row, y ∈ insertDesc r l ↔ y = r ∨ y ∈ l := by
  intro l
  induction l with
  | nil => simp [insertDesc]
  | cons x xs ih =>
    simp only [insertDesc]
    split
    · simp only [List.mem_cons, ih]
      tauto
    · simp only [List.mem_cons]

theorem insertDesc_perm (r : Row) : ∀ l : List Row, (insertDesc r l).Perm (r :: l) := by
  intro l
  induction l with
  | nil => simp [insertDesc]
  | cons x xs ih =>
    simp only [insertDesc]
    split
    · exact ((ih.cons x).trans (List.Perm.swap r x xs)).symm.symm
    · exact List.Perm.refl _

theorem sortDesc_perm : ∀ l : List Row, (sortDesc l).Perm l := by
  intro l
  induction l with
  | nil => simp [sortDesc]
  | cons x xs ih =>
    have : sortDesc (x :: xs) = insertDesc x (sortDesc xs) := rfl
    rw [this]
    exact (insertDesc_perm x (sortDesc xs)).trans (ih.cons x)

theorem pairwise_insertDesc (r : Row) :
    ∀ l : List Row,
      List.Pairwise (fun x y : Row => y.published_date.data ≤ x.published_date.data) l →
      List.Pairwise (fun x y : Row => y.published_date.data ≤ x.published_date.data)
        (insertDesc r l) := by
  intro l
  induction l with
  | nil => intro _; simp [insertDesc]
  | cons x xs ih =>
    intro h
    rcases List.pairwise_cons.mp h with ⟨hx, hxs⟩
    simp only [insertDesc]
    split
    · rename_i hlt
      refine List.pairwise_cons.mpr ⟨?_, ih hxs⟩
      intro y hy
      rcases (mem_insertDesc r y xs).mp hy with rfl | hy'
      · exact le_of_lt hlt
      · exact hx y hy'
    · rename_i hnlt
      have hle : x.published_date.data ≤ r.published_date.data := not_lt.mp hnlt
      refine List.pairwise_cons.mpr ⟨?_, h⟩
      intro y hy
      rcases List.mem_cons.mp hy with rfl | hy'
      · exact hle
      · exact le_trans (hx y hy') hle

theorem sortDesc_pairwise (l : List Row) :
    List.Pairwise (fun x y : Row => y.published_date.data ≤ x.published_date.data)
      (sortDesc l) := by
  induction l with
  | nil => simp [sortDesc]
  | cons x xs ih => exact pairwise_insertDesc x (sortDesc xs) ih

theorem filter_insertDesc (d : String) (r : Row) :
    ∀ l : List Row,
      (insertDesc r l).filter (fun x => x.published_date == d) =
        if r.published_date == d then
          r :: l.filter (fun x => x.published_date == d)
        else l.filter (fun x => x.published_date == d) := by
  intro l
  induction l with
  | nil =>
    by_cases hr : r.published_date = d <;> simp [insertDesc, hr]
  | cons x xs ih =>
    simp only [insertDesc]
    split
    · rename_i hlt
      by_cases hr : r.published_date == d
      · have hrd : r.published_date = d := by simpa using hr
        have hx : (x.published_date == d) = false := by
          rcases hxe : x.published_date == d with _ | _
          · rfl
          · have hxd : x.published_date = d := by simpa using hxe
            rw [hrd, hxd] at hlt
            exact absurd hlt (lt_irrefl _)
        simp [List.filter_cons, hx, ih, hr]
      · have hr' : (r.published_date == d) = false := by simpa using hr
        simp [List.filter_cons, ih, hr']
    · simp [List.filter_cons]

theorem sortDesc_filter (d : String) :
    ∀ l : List Row,
      (sortDesc l).filter (fun x => x.published_date == d) =
        l.filter (fun x => x.published_date == d) := by
  intro l
  induction l with
  | nil => simp [sortDesc]
  | cons x xs ih =>
    have hs : sortDesc (x :: xs) = insertDesc x (sortDesc xs) := rfl
    rw [hs, filter_insertDesc d x (sortDesc xs)]
    by_cases hx : x.published_date == d
    · simp [List.filter_cons, hx, ih]
    · have hx' : (x.published_date == d) = false := by simpa using hx
      simp [List.filter_cons, hx', ih]

-- ## Claim theorems: the empty filter

/-- C3: with no constraint set (absent — or falsy-empty — source, keyword
and date), the built query matches every record, and the returned result
set is exactly the store stably sorted by `published_date` descending:
it is sorted, it is a permutation of the store, and rows tied on a date
keep their relative (insertion) order. -/
theorem claim_c3 (a : Args) (hs : optTruthy a.source = none) (hk : optTruthy a.keyword = none)
    (hd : optTruthy a.date = none) (store : Store) :
    (∀ r : Row, rowMatches r (build_query a).1 = true) ∧
    executeRows a store = sortDesc store ∧
    List.Pairwise (fun x y : Row => y.published_date.data ≤ x.published_date.data)
      (executeRows a store) ∧
    (executeRows a store).Perm store ∧
    ∀ d : String,
      (executeRows a store).filter (fun x => x.published_date == d) =
        store.filter (fun x => x.published_date == d) := by
  have hq : (build_query a).1 = [] := by
    simp [build_query, hs, hk, hd]
  have hrun : executeRows a store = sortDesc store := by
    simp [executeRows, hq, rowMatches]
  refine ⟨?_, hrun, ?_, ?_, ?_⟩
  · intro r
    simp [rowMatches, hq]
  · rw [hrun]
    exact sortDesc_pairwise store
  · rw [hrun]
    exact sortDesc_perm store
  · intro d
    rw [hrun]
    exact sortDesc_filter d store

theorem claim_c3_witness :
    rowMatches ⟨9, "t", "s", "l", "src", "2023-12-31"⟩
        (build_query ⟨none, none, none⟩).1 = true ∧
    executeRows ⟨none, none, none⟩
        [⟨1, "a1", "s1", "l1", "A", "2024-01-01"⟩,
         ⟨2, "a2", "s2", "l2", "B", "2024-03-05"⟩,
         ⟨3, "a3", "s3", "l3", "C", "2024-03-05"⟩] =
      sortDesc
        [⟨1, "a1", "s1", "l1", "A", "2024-01-01"⟩,
         ⟨2, "a2", "s2", "l2", "B", "2024-03-05"⟩,
         ⟨3, "a3", "s3", "l3", "C", "2024-03-05"⟩] ∧
    List.Pairwise (fun x y : Row => y.published_date.data ≤ x.published_date.data)
      (executeRows ⟨none, none, none⟩
        [⟨1, "a1", "s1", "l1", "A", "2024-01-01"⟩,
         ⟨2, "a2", "s2", "l2", "B", "2024-03-05"⟩,
         ⟨3, "a3", "s3", "l3", "C", "2024-03-05"⟩]) ∧
    (executeRows ⟨none, none, none⟩
        [⟨1, "a1", "s1", "l1", "A", "2024-01-01"⟩,
         ⟨2, "a2", "s2", "l2", "B", "2024-03-05"⟩,
         ⟨3, "a3", "s3", "l3", "C", "2024-03-05"⟩]).Perm
      [⟨1, "a1", "s1", "l1", "A", "2024-01-01"⟩,
       ⟨2, "a2", "s2", "l2", "B", "2024-03-05"⟩,
       ⟨3, "a3", "s3", "l3", "C", "2024-03-05"⟩] ∧
    (executeRows ⟨none, none, none⟩
        [⟨1, "a1", "s1", "l1", "A", "2024-01-01"⟩,
         ⟨2, "a2", "s2", "l2", "B", "2024-03-05"⟩,
         ⟨3, "a3", "s3", "l3", "C", "2024-03-05"⟩]).filter
        (fun x => x.published_date == "2024-03-05") =
      [⟨1, "a1", "s1", "l1", "A", "2024-01-01"⟩,
       ⟨2, "a2", "s2", "l2", "B", "2024-03-05"⟩,
       ⟨3, "a3", "s3", "l3", "C", "2024-03-05"⟩].filter
        (fun x => x.published_date == "2024-03-05") := by
  have h := claim_c3 ⟨none, none, none⟩ rfl rfl rfl
    [⟨1, "a1", "s1", "l1", "A", "2024-01-01"⟩,
     ⟨2, "a2", "s2", "l2", "B", "2024-03-05"⟩,
     ⟨3, "a3", "s3", "l3", "C", "2024-03-05"⟩]
  exact ⟨h.1 _, h.2.1, h.2.2.1, h.2.2.2.1, h.2.2.2.2 "2024-03-05"⟩

-- ## CSV round-trip lemmas

theorem csvGo_normal_plain (f : List Char) (hf : f.any isCsvSpecial = false) :
    ∀ (acc : List Char) (row : List (List Char)) (rest : List Char),
      csvGo .normal acc row (f ++ rest) = csvGo .normal (acc ++ f) row rest := by
  induction f with
  | nil => intro acc row rest; simp
  | cons c f' ih =>
    intro acc row rest
    simp only [List.any_cons, Bool.or_eq_false_iff] at hf
    obtain ⟨h1, h2⟩ := hf
    simp only [isCsvSpecial, Bool.or_eq_false_iff, beq_eq_false_iff_ne, ne_eq] at h1
    obtain ⟨⟨⟨hc1, hc2⟩, hc3⟩, _⟩ := h1
    simp only [List.cons_append, csvGo, if_neg hc1, if_neg hc3]
    rw [if_neg (by simp [hc2])]
    simpa [List.append_assoc] using ih h2 (acc ++ [c]) row rest

theorem csvGo_quoted_dq (f : List Char) :
    ∀ (acc : List Char) (row : List (List Char)) (rest : List Char),
      csvGo .quoted acc row (dq f ++ '"' :: rest) = csvGo .closing (acc ++ f) row rest := by
  induction f with
  | nil => intro acc row rest; simp [dq, csvGo]
  | cons c f' ih =>
    intro acc row rest
    by_cases hc : c = '"'
    · subst hc
      simp only [dq, if_pos rfl, List.cons_append, csvGo, if_pos rfl]
      simpa [List.append_assoc] using ih (acc ++ ['"']) row rest
    · simp only [dq, if_neg hc, List.cons_append, csvGo, if_neg hc]
      simpa [List.append_assoc] using ih (acc ++ [c]) row rest

theorem csvGo_quote_open (row : List (List Char)) (cs : List Char) :
    csvGo .normal [] row ('"' :: cs) = csvGo .quoted [] row cs := by
  simp [csvGo]

theorem csvGo_comma (field : List Char) (row : List (List Char)) (cs : List Char) :
    csvGo .normal field row (',' :: cs) = csvGo .normal [] (row ++ [field]) cs := by
  simp [csvGo]

theorem csvGo_newline (field : List Char) (row : List (List Char)) (cs : List Char) :
    csvGo .normal field row ('\n' :: cs) = (row ++ [field]) :: csvGo .normal [] [] cs := by
  simp [csvGo]

theorem csvGo_closing_comma (field : List Char) (row : List (List Char)) (cs : List Char) :
    csvGo .closing field row (',' :: cs) = csvGo .normal [] (row ++ [field]) cs := by
  simp [csvGo]

theorem csvGo_closing_newline (field : List Char) (row : List (List Char)) (cs : List Char) :
    csvGo .closing field row ('\n' :: cs) = (row ++ [field]) :: csvGo .normal [] [] cs := by
  simp [csvGo]

theorem csvGo_row (fields : List (List Char)) (hne : fields ≠ []) :
    ∀ (row : List (List Char)) (rest : List Char),
      csvGo .normal [] row (renderRow fields ++ '\n' :: rest) =
        (row ++ fields) :: csvGo .normal [] [] rest := by
  induction fields with
  | nil => exact absurd rfl hne
  | cons f fs ih =>
    intro row rest
    cases fs with
    | nil =>
      by_cases hq : f.any isCsvSpecial
      · have hshape : renderRow [f] ++ '\n' :: rest =
            '"' :: (dq f ++ '"' :: ('\n' :: rest)) := by
          simp [renderRow, escapeField, hq, List.append_assoc]
        rw [hshape, csvGo_quote_open, csvGo_quoted_dq f [] row ('\n' :: rest),
          csvGo_closing_newline]
        simp
      · have hshape : renderRow [f] ++ '\n' :: rest = f ++ '\n' :: rest := by
          simp [renderRow, escapeField, hq]
        rw [hshape, csvGo_normal_plain f (by simpa using hq) [] row ('\n' :: rest)]
        simp [csvGo_newline]
    | cons g gs =>
      by_cases hq : f.any isCsvSpecial
      · have hshape : renderRow (f :: g :: gs) ++ '\n' :: rest =
            '"' :: (dq f ++ '"' :: (',' :: (renderRow (g :: gs) ++ '\n' :: rest))) := by
          show (escapeField f ++ ',' :: renderRow (g :: gs)) ++ '\n' :: rest = _
          simp [escapeField, hq, List.append_assoc]
        rw [hshape, csvGo_quote_open, csvGo_quoted_dq f [] row _, csvGo_closing_comma]
        simp only [List.nil_append]
        rw [ih (by simp) (row ++ [f]) rest]
        simp
      · have hshape : renderRow (f :: g :: gs) ++ '\n' :: rest =
            f ++ (',' :: (renderRow (g :: gs) ++ '\n' :: rest)) := by
          show (escapeField f ++ ',' :: renderRow (g :: gs)) ++ '\n' :: rest = _
          simp [escapeField, hq, List.append_assoc]
        rw [hshape, csvGo_normal_plain f (by simpa using hq) [] row _]
        simp only [List.nil_append]
        rw [csvGo_comma, ih (by simp) (row ++ [f]) rest]
        simp

theorem csvGo_file :
    ∀ rows : List (List (List Char)), (∀ r ∈ rows, r ≠ []) →
      csvGo .normal [] [] (renderFile rows) = rows := by
  intro rows
  induction rows with
  | nil => intro _; simp [renderFile, csvGo]
  | cons r rs ih =>
    intro h
    have hr : r ≠ [] := h r (List.mem_cons_self r rs)
    simp only [renderFile]
    rw [csvGo_row r hr [] (renderFile rs)]
    rw [ih (fun x hx => h x (List.mem_cons_of_mem r hx))]
    simp

-- ## Claim theorem: the CSV round trip

/-- C8: exporting a non-empty result set to the delimited-text format
writes the minimally-quoted CSV text, and re-parsing that text yields the
header row followed by exactly the five visible field values of each
exported row (no hidden `id`), in the same row order. -/
theorem claim_c8 (vis : List VisibleRow) (h : vis ≠ []) :
    export_data vis "csv" = .fileWritten (.csv (csvFile vis)) ∧
    parseCsv (csvFile vis) = csvHeaderFields :: vis.map visFields := by
  constructor
  · simp [export_data, h]
  · unfold parseCsv csvFile
    apply csvGo_file
    intro r hr
    rcases List.mem_cons.mp hr with rfl | hmem
    · simp [csvHeaderFields]
    · rcases List.mem_map.mp hmem with ⟨v, _, rfl⟩
      simp [visFields]

theorem claim_c8_witness :
    export_data
        [⟨"a,b", "he said \"hi\"\nbye", "http://x", "Src", "2024-01-02"⟩,
         ⟨"", "", "l2", "S2", "2024-01-03"⟩] "csv" =
      .fileWritten (.csv (csvFile
        [⟨"a,b", "he said \"hi\"\nbye", "http://x", "Src", "2024-01-02"⟩,
         ⟨"", "", "l2", "S2", "2024-01-03"⟩])) ∧
    parseCsv (csvFile
        [⟨"a,b", "he said \"hi\"\nbye", "http://x", "Src", "2024-01-02"⟩,
         ⟨"", "", "l2", "S2", "2024-01-03"⟩]) =
      csvHeaderFields ::
        [⟨"a,b", "he said \"hi\"\nbye", "http://x", "Src", "2024-01-02"⟩,
         ⟨"", "", "l2", "S2", "2024-01-03"⟩].map visFields :=
  claim_c8
    [⟨"a,b", "he said \"hi\"\nbye", "http://x", "Src", "2024-01-02"⟩,
     ⟨"", "", "l2", "S2", "2024-01-03"⟩] (by decide)
